import Mathlib

/-!
# PyArch.dev front-end scripts: a shallow embedding

Source files embedded here:

* `src/frontend/static/js/main.js`: class `BlogManager` (theme toggle, scroll
  effects, image upload preview, form handling, entrance animations) and the
  free function `debounce`;
* `src/static/js/main.js`: the freestanding image upload preview handler.

The browser is modelled by explicit state: the persistence store
(`localStorage`), the parts of the document the scripts touch, the file
readers in flight and the timer table.  Every event handler of the source is
a function from state (and event payload) to state.  A handler that can be
left by an exception returns the state reached together with the error.
-/

namespace PyArch

/-! ## The persistence store -/

/-- The browser's `localStorage`.  `readThrows` / `writeThrows` record whether
`getItem` / `setItem` raise (storage disabled, quota exceeded, access denied). -/
structure LocalStorage where
  items : List (String × String)
  readThrows : Bool
  writeThrows : Bool
  deriving DecidableEq, Repr

/-- `localStorage.getItem(key)`: the stored string, `none` for JavaScript `null`. -/
def LocalStorage.getItem (ls : LocalStorage) (key : String) : Except String (Option String) :=
  if ls.readThrows then .error "SecurityError" else .ok (ls.items.lookup key)

/-- `localStorage.setItem(key, value)`: replaces the entry of `key`. -/
def LocalStorage.setItem (ls : LocalStorage) (key value : String) : Except String LocalStorage :=
  if ls.writeThrows then .error "QuotaExceededError"
  else .ok { ls with items := (key, value) :: ls.items.filter (fun kv => kv.1 != key) }

/-- JavaScript `a || b` on a value that is `null` or a string: `null` and the
empty string are falsy. -/
def orElse (a : Option String) (b : String) : String :=
  match a with
  | none => b
  | some s => if s = "" then b else s

/-! ## JavaScript numbers

Only the operations of the scroll handler are needed: a subtraction of two
integers, one division, one multiplication by `100`, one comparison with
`100` and one conversion to text.  A number is a finite value, `NaN` or an
infinity.  Finite values are rationals: every IEEE double is one.  The
rounding of an arithmetic result to a double is the function `fl` of a
`Rounding`; everything proved below holds for every such rounding, IEEE
round-to-nearest and exact arithmetic (`Rounding.exactArith`) alike.
Overflow of a finite result is not modelled (scroll offsets are far below
the range of a double). -/

/-- A JavaScript number. -/
inductive JSNum where
  | fin (q : ℚ)
  | nan
  | posInf
  | negInf
  deriving DecidableEq

/-- Rounding of an exact result to a representable number: monotone, and
the identity on `m / 2 ^ k` for a 53-bit integer `m` and `k ≤ 1022`, which
doubles represent exactly. -/
structure Rounding where
  fl : ℚ → ℚ
  mono : Monotone fl
  fl_dyadic : ∀ (m : ℤ) (k : ℕ), |m| < 2 ^ 53 → k ≤ 1022 →
    fl ((m : ℚ) / 2 ^ k) = (m : ℚ) / 2 ^ k

/-- Exact arithmetic: nothing is rounded. -/
def Rounding.exactArith : Rounding where
  fl := id
  mono := monotone_id
  fl_dyadic := fun _ _ _ _ => rfl

/-- JavaScript `a / b` for finite `a` and `b`, where a zero `b` is `+0` (the
divisor of the scroll handler is a difference `x - y`, which is `+0` when
`x = y`): `0 / 0` is `NaN`, a non-zero number over zero an infinity. -/
def jsDiv (R : Rounding) (a b : ℚ) : JSNum :=
  if b = 0 then
    if a = 0 then .nan else if 0 < a then .posInf else .negInf
  else .fin (R.fl (a / b))

/-- JavaScript `x * c` for a finite `c > 0`. -/
def jsMulPos (R : Rounding) (x : JSNum) (c : ℚ) : JSNum :=
  match x with
  | .fin q => .fin (R.fl (q * c))
  | .nan => .nan
  | .posInf => .posInf
  | .negInf => .negInf

/-- JavaScript `String(x)` where the language defines it by cases: `NaN`, the
infinities and the integers below `10 ^ 21`, written in decimal.  The digits
of a fractional value depend on its binary expansion and are not modelled
(`none`), nor is the exponent form of larger integers. -/
def numberToString (x : JSNum) : Option String :=
  match x with
  | .nan => some "NaN"
  | .posInf => some "Infinity"
  | .negInf => some "-Infinity"
  | .fin q => if q.den = 1 ∧ q.num.natAbs < 10 ^ 21 then some (toString q.num) else none

/-! ## The document -/

/-- A child node of the preview container, with the properties the scripts
set on it. -/
inductive Node where
  | img (src alt : String)
  | button (type className textContent : String)
  deriving DecidableEq, Repr

/-- A file picked by the user; `dataURL` is what `readAsDataURL` yields for it. -/
structure File where
  name : String
  dataURL : String
  deriving DecidableEq, Repr

/-- The `#image-upload` file input. -/
structure FileInput where
  value : String
  files : List File
  deriving DecidableEq, Repr

/-- Inline style of an animated element.  `transition` holds the index `i` of
the template text `opacity 0.6s ease (i * 0.1)s, transform 0.6s ease (i * 0.1)s`. -/
structure ElemStyle where
  opacity : Option String
  transform : Option String
  transition : Option Nat
  deriving DecidableEq, Repr

/-- A form: the `innerHTML` of its `button[type="submit"]`, if it has one. -/
structure Form where
  submitBtn : Option String
  deriving DecidableEq, Repr

/-- Which listeners the scripts have registered. -/
structure Listeners where
  themeClick : Bool
  scroll : Bool
  change : Bool
  submit : Bool
  observer : Bool
  deriving DecidableEq, Repr

/-- The state the scripts read and write. -/
structure World where
  /-- the persistence store -/
  storage : LocalStorage
  /-- `this.currentTheme`; `none` while no `BlogManager` has been constructed -/
  currentTheme : Option String
  /-- the `data-theme` attribute of `document.body` -/
  dataTheme : Option String
  /-- is there an element matching `.theme-toggle` -/
  themeToggle : Bool
  /-- the class list of `#header`, if the element exists -/
  header : Option (List String)
  /-- `#scrollProgress`, if it exists: the number `n` of the last text
  `n + '%'` assigned to `style.width` -/
  scrollProgress : Option (Option JSNum)
  /-- `#image-upload`, if it exists -/
  imageUpload : Option FileInput
  /-- the children of `#image-preview`, if it exists -/
  imagePreview : Option (List Node)
  /-- file readers whose `readAsDataURL` has not completed yet -/
  readers : List (Nat × File)
  nextReader : Nat
  forms : List Form
  /-- `'IntersectionObserver' in window` -/
  hasIntersectionObserver : Bool
  /-- the elements matching `.card, .post`, in document order -/
  animated : List ElemStyle
  listeners : Listeners

/-- The state a piece of script leaves behind, and the exception that
escaped from it, if any. -/
structure Run where
  world : World
  error : Option String

/-- `classList.add(c)`: a class list holds each class once. -/
def classListAdd (cls : List String) (c : String) : List String :=
  if c ∈ cls then cls else cls ++ [c]

/-- `classList.remove(c)`. -/
def classListRemove (cls : List String) (c : String) : List String :=
  cls.filter (fun x => x != c)

/-- What a scroll handler reads from `window` and `document` when it runs:
`window.pageYOffset`, `document.documentElement.scrollHeight` and
`window.innerHeight`. -/
structure ScrollSample where
  pageYOffset : ℚ
  scrollHeight : ℤ
  innerHeight : ℤ

/-- One entry handed to the intersection observer's callback: `target` is
the index of the element among the observed ones. -/
structure Entry where
  target : Nat
  isIntersecting : Bool
  deriving DecidableEq, Repr

/-- Apply `f` to the inline style of element `i`. -/
def updateStyle (els : List ElemStyle) (i : Nat) (f : ElemStyle → ElemStyle) : List ElemStyle :=
  match els[i]? with
  | some e => els.set i (f e)
  | none => els

/-! ## `class BlogManager` (src/frontend/static/js/main.js) -/

namespace BlogManager

/-- The click listener of `.theme-toggle` (lines 21-25). -/
def themeToggleClick (w : World) : Run :=
  let theme := if w.currentTheme = some "light" then "dark" else "light"
  let w1 := { w with currentTheme := some theme }
  let w2 := { w1 with dataTheme := w1.currentTheme }
  match w2.storage.setItem "theme" theme with
  | .error e => ⟨w2, some e⟩
  | .ok st => ⟨{ w2 with storage := st }, none⟩

/-- `setupTheme()` (lines 16-27). -/
def setupTheme (w : World) : World :=
  let w1 := { w with dataTheme := w.currentTheme }
  if w1.themeToggle then
    { w1 with listeners := { w1.listeners with themeClick := true } }
  else w1

/-- The `scroll` listener (lines 34-48). -/
def onScroll (R : Rounding) (w : World) (e : ScrollSample) : World :=
  let scrollTop : ℚ := e.pageYOffset
  let docHeight : ℚ := ((e.scrollHeight - e.innerHeight : ℤ) : ℚ)
  let scrollPercent := jsMulPos R (jsDiv R scrollTop docHeight) 100
  let w1 := { w with scrollProgress := w.scrollProgress.map (fun _ => some scrollPercent) }
  match w1.header with
  | some cls =>
    if scrollTop > 100 then { w1 with header := some (classListAdd cls "scrolled") }
    else { w1 with header := some (classListRemove cls "scrolled") }
  | none => w1

/-- `setupScrollEffects()` (lines 29-50): the listener is registered only
when `#scrollProgress` exists. -/
def setupScrollEffects (w : World) : World :=
  if w.scrollProgress.isSome then
    { w with listeners := { w.listeners with scroll := true } }
  else w

/-- The click listener of the Remove button (lines 74-77).  Assigning the
empty string to a file input's `value` empties its list of files. -/
def removeClick (w : World) : World :=
  let w1 := { w with imagePreview := w.imagePreview.map (fun _ => []) }
  { w1 with imageUpload := w1.imageUpload.map (fun _ => ⟨"", []⟩) }

/-- `reader.onload` (lines 64-82); `result` is `e.target.result`. -/
def readerOnload (w : World) (result : String) : World :=
  let img := Node.img result "Preview"
  let removeBtn := Node.button "button" "remove-image-btn" "Remove"
  let w1 := { w with imagePreview := w.imagePreview.map (fun c => c ++ [img]) }
  { w1 with imagePreview := w1.imagePreview.map (fun c => c ++ [removeBtn]) }

/-- The `change` listener of `#image-upload` (lines 57-86). -/
def onChange (w : World) : World :=
  let w1 := { w with imagePreview := w.imagePreview.map (fun _ => []) }
  match w1.imageUpload.bind (fun i => i.files.head?) with
  | some file =>
    { w1 with readers := w1.readers ++ [(w1.nextReader, file)], nextReader := w1.nextReader + 1 }
  | none => w1

/-- `setupImageUpload()` (lines 52-88). -/
def setupImageUpload (w : World) : World :=
  if w.imageUpload.isSome ∧ w.imagePreview.isSome then
    { w with listeners := { w.listeners with change := true } }
  else w

/-- The `submit` listener of form `i` (lines 93-101). -/
def onSubmit (w : World) (i : Nat) : World :=
  match w.forms[i]? with
  | some form =>
    if form.submitBtn.isSome then
      { w with forms := w.forms.set i ⟨some "<div class=\"loading\"></div> Submitting..."⟩ }
    else w
  | none => w

/-- `setupFormHandling()` (lines 90-103): a `submit` listener on every form,
none when the page has no form. -/
def setupFormHandling (w : World) : World :=
  { w with listeners := { w.listeners with submit := w.listeners.submit || !w.forms.isEmpty } }

/-- The intersection observer's callback (lines 113-120). -/
def observerCallback (w : World) (entries : List Entry) : World :=
  entries.foldl (fun w entry =>
    if entry.isIntersecting then
      let a1 := updateStyle w.animated entry.target (fun s => { s with opacity := some "1" })
      let a2 := updateStyle a1 entry.target (fun s => { s with transform := some "translateY(0)" })
      { w with animated := a2 }
    else w) w

/-- `setupAnimations()` (lines 105-131). -/
def setupAnimations (w : World) : World :=
  if w.hasIntersectionObserver then
    let styled := w.animated.mapIdx (fun index _ => ⟨some "0", some "translateY(20px)", some index⟩)
    { w with animated := styled, listeners := { w.listeners with observer := true } }
  else w

/-- `init()` (lines 8-14). -/
def init (w : World) : World :=
  setupAnimations (setupFormHandling (setupImageUpload (setupScrollEffects (setupTheme w))))

/-- `new BlogManager()` (lines 3-6). -/
def constructor (w : World) : Run :=
  match w.storage.getItem "theme" with
  | .error e => ⟨w, some e⟩
  | .ok v => ⟨init { w with currentTheme := some (orElse v "light") }, none⟩

end BlogManager

/-! ## The freestanding preview script (src/static/js/main.js) -/

namespace Standalone

/-- The click listener of the Remove button (lines 24-27). -/
def removeClick (w : World) : World :=
  let w1 := { w with imagePreview := w.imagePreview.map (fun _ => []) }
  { w1 with imageUpload := w1.imageUpload.map (fun _ => ⟨"", []⟩) }

/-- `reader.onload` (lines 14-32); `result` is `e.target.result`. -/
def readerOnload (w : World) (result : String) : World :=
  let img := Node.img result "Preview"
  let removeBtn := Node.button "button" "remove-image-btn" "Remove"
  let w1 := { w with imagePreview := w.imagePreview.map (fun c => c ++ [img]) }
  { w1 with imagePreview := w1.imagePreview.map (fun c => c ++ [removeBtn]) }

/-- The `change` listener of `#image-upload` (lines 7-36). -/
def onChange (w : World) : World :=
  let w1 := { w with imagePreview := w.imagePreview.map (fun _ => []) }
  match w1.imageUpload.bind (fun i => i.files.head?) with
  | some file =>
    { w1 with readers := w1.readers ++ [(w1.nextReader, file)], nextReader := w1.nextReader + 1 }
  | none => w1

/-- The `DOMContentLoaded` listener (lines 2-38). -/
def domContentLoaded (w : World) : World :=
  if w.imageUpload.isSome ∧ w.imagePreview.isSome then
    { w with listeners := { w.listeners with change := true } }
  else w

end Standalone

/-! ## The browser's side of the preview widget

The events that reach the widget, and what the browser does around the
script's listeners: it fills the input before firing `change`, completes a
pending read with `load` (the script's `onload`) or with `error` (no listener
in either script), and delivers a click only to a button that is in the
document. -/

/-- The three listeners of a preview script. -/
structure PreviewScript where
  onChange : World → World
  readerOnload : World → String → World
  removeClick : World → World

/-- The listeners of `BlogManager.setupImageUpload`. -/
def BlogManager.previewScript : PreviewScript :=
  ⟨BlogManager.onChange, BlogManager.readerOnload, BlogManager.removeClick⟩

/-- The listeners of the freestanding script. -/
def Standalone.previewScript : PreviewScript :=
  ⟨Standalone.onChange, Standalone.readerOnload, Standalone.removeClick⟩

/-- An event of the preview widget. -/
inductive PreviewEvent where
  /-- the user picks `files` in the file dialog (none: the dialog's selection is emptied) -/
  | select (files : List File)
  /-- the read started as reader `reader` completes -/
  | loaded (reader : Nat)
  /-- the read started as reader `reader` fails -/
  | failed (reader : Nat)
  /-- the user clicks a Remove button -/
  | remove
  deriving DecidableEq, Repr

/-- The `value` a file input shows for its selection. -/
def fakePath (files : List File) : String :=
  match files with
  | [] => ""
  | f :: _ => "C:\\fakepath\\" ++ f.name

/-- Is `n` a Remove button. -/
def Node.isButton (n : Node) : Bool :=
  match n with
  | .button _ _ _ => true
  | .img _ _ => false

/-- Is `n` an image. -/
def Node.isImg (n : Node) : Bool :=
  match n with
  | .img _ _ => true
  | .button _ _ _ => false

/-- One event of the preview widget, handled by the script `S`. -/
def previewStep (S : PreviewScript) (w : World) (ev : PreviewEvent) : World :=
  match ev with
  | .select files =>
    let w1 := { w with imageUpload := w.imageUpload.map (fun _ => ⟨fakePath files, files⟩) }
    if w1.listeners.change then S.onChange w1 else w1
  | .loaded r =>
    match w.readers.lookup r with
    | some file =>
      S.readerOnload { w with readers := w.readers.filter (fun p => p.1 != r) } file.dataURL
    | none => w
  | .failed r => { w with readers := w.readers.filter (fun p => p.1 != r) }
  | .remove =>
    match w.imagePreview with
    | some children => if children.any Node.isButton then S.removeClick w else w
    | none => w

/-- A sequence of events of the preview widget. -/
def previewRun (S : PreviewScript) (w : World) (evs : List PreviewEvent) : World :=
  evs.foldl (previewStep S) w

/-- The number of rendered previews in the container: its images. -/
def previewCount (w : World) : Nat :=
  match w.imagePreview with
  | some children => children.countP Node.isImg
  | none => 0

/-- A sequence of scroll events, each with what the handler reads, delivered
to the `scroll` listener if it is registered. -/
def scrollRun (R : Rounding) (w : World) (samples : List ScrollSample) : World :=
  samples.foldl (fun w e => if w.listeners.scroll then BlogManager.onScroll R w e else w) w

/-- A click on the theme toggle, delivered to the listener if it is
registered. -/
def themeClick (w : World) : Run :=
  if w.listeners.themeClick then BlogManager.themeToggleClick w else ⟨w, none⟩

/-- A page on which no script has run yet: the store `st` and the elements
of the markup. -/
def freshWorld (st : LocalStorage) (themeToggle : Bool) (header : Option (List String))
    (hasProgress : Bool) (hasInput hasPreview : Bool) (forms : List Form)
    (hasObserver : Bool) (animated : Nat) : World where
  storage := st
  currentTheme := none
  dataTheme := none
  themeToggle := themeToggle
  header := header
  scrollProgress := if hasProgress then some none else none
  imageUpload := if hasInput then some ⟨"", []⟩ else none
  imagePreview := if hasPreview then some [] else none
  readers := []
  nextReader := 0
  forms := forms
  hasIntersectionObserver := hasObserver
  animated := List.replicate animated ⟨none, none, none⟩
  listeners := ⟨false, false, false, false, false⟩

/-! ## Pages, files and event sequences used in the statements -/

/-- A store whose reads and writes succeed and that holds `items`. -/
def workingStore (items : List (String × String)) : LocalStorage := ⟨items, false, false⟩

/-- A page with a theme toggle whose store holds nothing. -/
def emptyStoreWorld : World :=
  freshWorld (workingStore []) true none false false false [] false 0

/-- A page with a theme toggle whose store holds the theme `blue`. -/
def blueWorld : World :=
  freshWorld (workingStore [("theme", "blue")]) true none false false false [] false 0

/-- A page with a theme toggle whose store holds the theme `dark`. -/
def darkWorld : World :=
  freshWorld (workingStore [("theme", "dark")]) true none false false false [] false 0

/-- A page with a theme toggle whose store raises on every read. -/
def unreadableWorld : World :=
  freshWorld ⟨[], true, false⟩ true none false false false [] false 0

/-- A page with a theme toggle whose store raises on every write. -/
def unwritableWorld : World :=
  freshWorld ⟨[], false, true⟩ true none false false false [] false 0

/-- A page with a header and a progress bar, before any script runs. -/
def barWorld : World :=
  freshWorld (workingStore []) false (some ["site-header"]) true false false [] false 0

/-- A page with a header and no progress bar, before any script runs. -/
def noBarWorld : World :=
  freshWorld (workingStore []) false (some ["site-header"]) false false false [] false 0

/-- A page with the file input and the preview container, before any script runs. -/
def uploadWorld : World :=
  freshWorld (workingStore []) false none false true true [] false 0

/-- A first picture. -/
def fileA : File := ⟨"a.png", "data:image/png;base64,AAAA"⟩

/-- A second picture. -/
def fileB : File := ⟨"b.png", "data:image/png;base64,BBBB"⟩

/-- The image rendered for a file. -/
def previewImg (f : File) : Node := Node.img f.dataURL "Preview"

/-- The Remove button rendered next to it. -/
def removeBtn : Node := Node.button "button" "remove-image-btn" "Remove"

/-- Does every selection of `evs` happen while no read is pending. -/
def serialRun (S : PreviewScript) (w : World) : List PreviewEvent → Bool
  | [] => true
  | ev :: evs =>
    (match ev with
      | .select _ => w.readers.isEmpty
      | _ => true) && serialRun S (previewStep S w ev) evs

/-- The state of the widget between events when selections do not overlap
reads: either nothing is pending and at most one preview is rendered, or one
read is pending and the container shows no preview. -/
def SerialInv (w : World) : Prop :=
  (w.readers = [] ∧ previewCount w ≤ 1) ∨
  ((∃ r f, w.readers = [(r, f)]) ∧ previewCount w = 0)

/-- A sequence of calls of the observer's callback, each with its entries,
made if the observer was created. -/
def observerRun (w : World) (calls : List (List Entry)) : World :=
  calls.foldl (fun w entries =>
    if w.listeners.observer then BlogManager.observerCallback w entries else w) w

/-- The inline style of element `i` as `setupAnimations` leaves it. -/
def hiddenStyle (i : Nat) : ElemStyle := ⟨some "0", some "translateY(20px)", some i⟩

/-- The inline style of element `i` once revealed. -/
def visibleStyle (i : Nat) : ElemStyle := ⟨some "1", some "translateY(0)", some i⟩

/-- Does `entry` report element `i` as intersecting. -/
def Entry.reveals (i : Nat) (entry : Entry) : Bool :=
  entry.target == i && entry.isIntersecting

/-- A page with three cards in a browser that has `IntersectionObserver`. -/
def cardsWorld : World :=
  freshWorld (workingStore []) false none false false false [] true 3

/-- One entry of the callback, on the list of styles. -/
def revealEntry (els : List ElemStyle) (entry : Entry) : List ElemStyle :=
  if entry.isIntersecting then
    updateStyle (updateStyle els entry.target (fun s => { s with opacity := some "1" }))
      entry.target (fun s => { s with transform := some "translateY(0)" })
  else els

/-! ## `debounce` (src/frontend/static/js/main.js, lines 141-151)

The browser's timers are modelled by a table of pending timers with an
identifier, a due time in milliseconds and the callback's captured
arguments.  A timer runs at some time not before it is due; running it
removes it from the table.  What `func` is called with, and when, is kept in
the log `invoked`. -/

namespace Debounce

/-- A pending timer created by `setTimeout(later, wait)`; `args` are the
arguments captured by the closure `later`. -/
structure Timer (α : Type) where
  id : Nat
  due : Nat
  args : α

/-- The state of one debounced function: the clock, the variable `timeout`
(`none` for `undefined`), its pending timers, the next timer identifier and
the calls of `func` made so far, with their time. -/
structure State (α : Type) where
  now : Nat
  timeout : Option Nat
  timers : List (Timer α)
  nextId : Nat
  invoked : List (Nat × α)

variable {α : Type}

/-- `clearTimeout(id)`; clearing `undefined` or a timer that is not pending
does nothing. -/
def clearTimeout (s : State α) (id : Option Nat) : State α :=
  match id with
  | some i => { s with timers := s.timers.filter (fun tm => tm.id != i) }
  | none => s

/-- `setTimeout(later, wait)`: the new state and the identifier returned. -/
def setTimeout (s : State α) (args : α) (wait : Nat) : State α × Nat :=
  ({ s with timers := s.timers ++ [⟨s.nextId, s.now + wait, args⟩], nextId := s.nextId + 1 },
    s.nextId)

/-- The closure `later` (lines 144-147). -/
def later (s : State α) (args : α) : State α :=
  let s1 := clearTimeout s s.timeout
  { s1 with invoked := s1.invoked ++ [(s1.now, args)] }

/-- The returned function `executedFunction(...args)` (lines 143-150). -/
def executedFunction (wait : Nat) (s : State α) (args : α) : State α :=
  let s1 := clearTimeout s s.timeout
  let r := setTimeout s1 args wait
  { r.1 with timeout := some r.2 }

/-- `debounce(func, wait)` evaluated at time `now`: `timeout` is undefined
and no timer of the new function is pending. -/
def debounce (now nextId : Nat) : State α := ⟨now, none, [], nextId, []⟩

/-- What can happen to a debounced function: it is called at time `t`, or
the browser runs its pending timer `id` at time `t`. -/
inductive Event (α : Type) where
  | call (t : Nat) (args : α)
  | fire (t : Nat) (id : Nat)

/-- One event; `none` when the event cannot happen in state `s` (time does
not run backwards, and only a pending timer that is due can run). -/
def step (wait : Nat) (s : State α) (ev : Event α) : Option (State α) :=
  match ev with
  | .call t args =>
    if s.now ≤ t then some (executedFunction wait { s with now := t } args) else none
  | .fire t id =>
    match s.timers.find? (fun tm => tm.id == id) with
    | some tm =>
      if s.now ≤ t ∧ tm.due ≤ t then
        some (later
          { s with now := t, timers := s.timers.filter (fun x => x.id != id) } tm.args)
      else none
    | none => none

/-- A sequence of events. -/
def run (wait : Nat) (s : State α) : List (Event α) → Option (State α)
  | [] => some s
  | ev :: evs => (step wait s ev).bind (fun s1 => run wait s1 evs)

/-- What the last event leaves pending: after a call at `t0` with `a`, exactly
the timer due at `t0 + wait` carrying `a`, held by `timeout`; otherwise
nothing. -/
def Pending (wait : Nat) (last : Option (Event α)) (s : State α) : Prop :=
  match last with
  | some (.call t0 a) =>
    ∃ id, s.timers = [⟨id, t0 + wait, a⟩] ∧ s.timeout = some id ∧ s.now = t0
  | _ => s.timers = []

end Debounce

/-! # Theorems -/

/-! ## Theme: initialisation, toggle, persistence failures -/

theorem init_currentTheme (w : World) : (BlogManager.init w).currentTheme = w.currentTheme := by
  simp only [BlogManager.init, BlogManager.setupAnimations, BlogManager.setupFormHandling,
    BlogManager.setupImageUpload, BlogManager.setupScrollEffects, BlogManager.setupTheme]
  repeat' split
  all_goals rfl

theorem init_dataTheme (w : World) : (BlogManager.init w).dataTheme = w.currentTheme := by
  simp only [BlogManager.init, BlogManager.setupAnimations, BlogManager.setupFormHandling,
    BlogManager.setupImageUpload, BlogManager.setupScrollEffects, BlogManager.setupTheme]
  repeat' split
  all_goals rfl

theorem init_themeClick (w : World) (h : w.themeToggle = true) :
    (BlogManager.init w).listeners.themeClick = true := by
  simp only [BlogManager.init, BlogManager.setupAnimations, BlogManager.setupFormHandling,
    BlogManager.setupImageUpload, BlogManager.setupScrollEffects, BlogManager.setupTheme]
  split_ifs <;> simp_all

/-- C1, as stated, fails: a persisted theme `blue`, neither `light` nor `dark`,
is taken over by the constructor as `currentTheme` and as `data-theme`. -/
theorem constructor_keeps_unknown_theme :
    blueWorld.storage.items.lookup "theme" = some "blue" ∧
    (BlogManager.constructor blueWorld).error = none ∧
    (BlogManager.constructor blueWorld).world.currentTheme = some "blue" ∧
    (BlogManager.constructor blueWorld).world.dataTheme = some "blue" ∧
    (BlogManager.constructor blueWorld).world.currentTheme ≠ some "light" := by
  decide

/-- C1, amended: with a readable store, constructing `BlogManager` raises
nothing and sets `currentTheme` and `data-theme` to the same value, which is
`light` when the key `theme` is absent or holds the empty string, and is the
persisted string itself, whatever it is, in every other case. -/
theorem constructor_theme (w : World) (hread : w.storage.readThrows = false) :
    (BlogManager.constructor w).error = none ∧
    (BlogManager.constructor w).world.dataTheme = (BlogManager.constructor w).world.currentTheme ∧
    (w.storage.items.lookup "theme" = none ∨ w.storage.items.lookup "theme" = some "" →
      (BlogManager.constructor w).world.currentTheme = some "light") ∧
    (∀ s, w.storage.items.lookup "theme" = some s → s ≠ "" →
      (BlogManager.constructor w).world.currentTheme = some s) := by
  have hget : w.storage.getItem "theme" = .ok (w.storage.items.lookup "theme") := by
    simp [LocalStorage.getItem, hread]
  simp only [BlogManager.constructor, hget, init_currentTheme, init_dataTheme, true_and]
  refine ⟨?_, ?_⟩
  · rintro (h | h) <;> simp [h, orElse]
  · intro s h hs
    simp [h, orElse, hs]

/-- The amended C1 at a store without the key `theme` and at the store holding `dark`. -/
theorem constructor_theme_witness :
    (BlogManager.constructor emptyStoreWorld).world.currentTheme = some "light" ∧
    (BlogManager.constructor darkWorld).world.currentTheme = some "dark" :=
  ⟨(constructor_theme emptyStoreWorld rfl).2.2.1 (Or.inl rfl),
   (constructor_theme darkWorld rfl).2.2.2 "dark" rfl (by decide)⟩

theorem themeToggleClick_ok (w : World) (hw : w.storage.writeThrows = false) :
    (BlogManager.themeToggleClick w).error = none ∧
    (BlogManager.themeToggleClick w).world.currentTheme =
      some (if w.currentTheme = some "light" then "dark" else "light") ∧
    (BlogManager.themeToggleClick w).world.dataTheme =
      (BlogManager.themeToggleClick w).world.currentTheme ∧
    (BlogManager.themeToggleClick w).world.storage.items.lookup "theme" =
      (BlogManager.themeToggleClick w).world.currentTheme ∧
    (BlogManager.themeToggleClick w).world.storage.writeThrows = false ∧
    (BlogManager.themeToggleClick w).world.listeners = w.listeners := by
  simp [BlogManager.themeToggleClick, LocalStorage.setItem, hw, List.lookup]

theorem themeToggleClick_throws (w : World) (hw : w.storage.writeThrows = true) :
    (BlogManager.themeToggleClick w).error = some "QuotaExceededError" ∧
    (BlogManager.themeToggleClick w).world.currentTheme =
      some (if w.currentTheme = some "light" then "dark" else "light") ∧
    (BlogManager.themeToggleClick w).world.dataTheme =
      (BlogManager.themeToggleClick w).world.currentTheme ∧
    (BlogManager.themeToggleClick w).world.storage = w.storage := by
  simp [BlogManager.themeToggleClick, LocalStorage.setItem, hw]

/-- C2, as stated, fails: starting from the theme `blue` (what the
constructor takes over from the store of `blueWorld`), two clicks on the
toggle leave `dark`, not `blue`. -/
theorem toggle_twice_from_unknown_theme :
    (BlogManager.constructor blueWorld).world.currentTheme = some "blue" ∧
    (themeClick (BlogManager.constructor blueWorld).world).world.currentTheme = some "light" ∧
    (themeClick (themeClick (BlogManager.constructor blueWorld).world).world).world.currentTheme
      = some "dark" := by
  decide

/-- C2, amended: on a page whose toggle listener is registered and whose
store accepts writes, after each of two successive clicks the value stored
under `theme` and the `data-theme` attribute both equal the `currentTheme`
reached at that step, and no click raises; when the starting theme `v` is
`light` or `dark`, the first click changes it and the second restores `v`. -/
theorem toggle_twice (w : World) (hl : w.listeners.themeClick = true)
    (hw : w.storage.writeThrows = false) :
    (themeClick w).error = none ∧
    (themeClick w).world.storage.items.lookup "theme" = (themeClick w).world.currentTheme ∧
    (themeClick w).world.dataTheme = (themeClick w).world.currentTheme ∧
    (themeClick (themeClick w).world).error = none ∧
    (themeClick (themeClick w).world).world.storage.items.lookup "theme" =
      (themeClick (themeClick w).world).world.currentTheme ∧
    (themeClick (themeClick w).world).world.dataTheme =
      (themeClick (themeClick w).world).world.currentTheme ∧
    (∀ v, w.currentTheme = some v → v = "light" ∨ v = "dark" →
      (themeClick w).world.currentTheme ≠ some v ∧
      (themeClick (themeClick w).world).world.currentTheme = some v) := by
  have h1 := themeToggleClick_ok w hw
  have e1 : themeClick w = BlogManager.themeToggleClick w := by simp [themeClick, hl]
  have hl2 : (BlogManager.themeToggleClick w).world.listeners.themeClick = true := by
    rw [h1.2.2.2.2.2]; exact hl
  have h2 := themeToggleClick_ok (BlogManager.themeToggleClick w).world h1.2.2.2.2.1
  have e2 : themeClick (BlogManager.themeToggleClick w).world =
      BlogManager.themeToggleClick (BlogManager.themeToggleClick w).world := by
    simp [themeClick, hl2]
  rw [e1, e2]
  refine ⟨h1.1, h1.2.2.2.1, h1.2.2.1, h2.1, h2.2.2.2.1, h2.2.2.1, ?_⟩
  intro v hv hval
  rw [h2.2.1, h1.2.1, hv]
  rcases hval with rfl | rfl <;> simp

/-- The amended C2 on the page constructed from a store holding `dark`. -/
theorem toggle_twice_witness :
    (themeClick (BlogManager.constructor darkWorld).world).world.currentTheme ≠ some "dark" ∧
    (themeClick (themeClick (BlogManager.constructor darkWorld).world).world).world.currentTheme
      = some "dark" :=
  (toggle_twice (BlogManager.constructor darkWorld).world (by decide) (by decide)).2.2.2.2.2.2
    "dark" (by decide) (Or.inr rfl)

/-- C9, as stated, fails: with a store that raises on read, constructing
`BlogManager` raises, and no theme is set at all; with a store that raises
on write, a click on the toggle raises. -/
theorem storage_failure_escapes :
    (BlogManager.constructor unreadableWorld).error = some "SecurityError" ∧
    (BlogManager.constructor unreadableWorld).world.currentTheme = none ∧
    (BlogManager.constructor unreadableWorld).world.dataTheme = none ∧
    (BlogManager.constructor unwritableWorld).world.listeners.themeClick = true ∧
    (themeClick (BlogManager.constructor unwritableWorld).world).error
      = some "QuotaExceededError" := by
  decide

/-- C9, amended: no failure of the store is caught.  When the store raises
on read, constructing `BlogManager` raises that error before anything is set
up (the page is left as it was).  When reads succeed, construction raises
nothing, whether or not writes would.  When the store raises on write, a
click on the toggle still flips `currentTheme` and updates `data-theme`, and
then raises the error of the write, the store left unchanged. -/
theorem storage_failure (w : World) :
    (w.storage.readThrows = true →
      (BlogManager.constructor w).error ≠ none ∧ (BlogManager.constructor w).world = w) ∧
    (w.storage.readThrows = false → (BlogManager.constructor w).error = none) ∧
    (w.listeners.themeClick = true → w.storage.writeThrows = true →
      (themeClick w).error ≠ none ∧
      (themeClick w).world.currentTheme =
        some (if w.currentTheme = some "light" then "dark" else "light") ∧
      (themeClick w).world.dataTheme = (themeClick w).world.currentTheme ∧
      (themeClick w).world.storage = w.storage) := by
  refine ⟨?_, ?_, ?_⟩
  · intro h
    simp [BlogManager.constructor, LocalStorage.getItem, h]
  · intro h
    simp [BlogManager.constructor, LocalStorage.getItem, h]
  · intro hl hw
    have e1 : themeClick w = BlogManager.themeToggleClick w := by simp [themeClick, hl]
    have h1 := themeToggleClick_throws w hw
    rw [e1]
    exact ⟨by simp [h1.1], h1.2.1, h1.2.2.1, h1.2.2.2⟩

/-- The amended C9 on a page whose store raises on read and on the page
constructed over a store that raises on write. -/
theorem storage_failure_witness :
    ((BlogManager.constructor unreadableWorld).error ≠ none ∧
      (BlogManager.constructor unreadableWorld).world = unreadableWorld) ∧
    (BlogManager.constructor unwritableWorld).error = none ∧
    (themeClick (BlogManager.constructor unwritableWorld).world).world.currentTheme
      = some "dark" :=
  ⟨(storage_failure unreadableWorld).1 rfl,
   (storage_failure unwritableWorld).2.1 rfl,
   ((storage_failure (BlogManager.constructor unwritableWorld).world).2.2
      (by decide) (by decide)).2.1⟩

/-! ## Scroll effects -/

theorem rounding_zero (R : Rounding) : R.fl 0 = 0 := by
  have h := R.fl_dyadic 0 0 (by norm_num) (by norm_num)
  simpa using h

theorem rounding_int (R : Rounding) (m : ℤ) (h : |m| < 2 ^ 53) : R.fl (m : ℚ) = (m : ℚ) := by
  have h := R.fl_dyadic m 0 h (by norm_num)
  simpa using h

theorem rounding_half (R : Rounding) : R.fl (1 / 2) = 1 / 2 := by
  have h := R.fl_dyadic 1 1 (by norm_num) (by norm_num)
  simpa using h

theorem onScroll_width (R : Rounding) (w : World) (e : ScrollSample)
    (hp : w.scrollProgress.isSome = true) :
    (BlogManager.onScroll R w e).scrollProgress =
      some (some (jsMulPos R (jsDiv R e.pageYOffset ((e.scrollHeight - e.innerHeight : ℤ) : ℚ)) 100)) := by
  obtain ⟨x, hx⟩ := Option.isSome_iff_exists.mp hp
  simp only [BlogManager.onScroll]
  split <;> [split; skip] <;> simp [hx]

theorem onScroll_header (R : Rounding) (w : World) (e : ScrollSample) :
    (BlogManager.onScroll R w e).header = w.header.map (fun cls =>
      if e.pageYOffset > 100 then classListAdd cls "scrolled"
      else classListRemove cls "scrolled") := by
  simp only [BlogManager.onScroll]
  split <;> [split; skip] <;> simp_all

theorem onScroll_listeners (R : Rounding) (w : World) (e : ScrollSample) :
    (BlogManager.onScroll R w e).listeners = w.listeners := by
  simp only [BlogManager.onScroll]
  split <;> [split; skip] <;> rfl

theorem mem_classListAdd (cls : List String) (c : String) : c ∈ classListAdd cls c := by
  unfold classListAdd
  split <;> simp_all

theorem not_mem_classListRemove (cls : List String) (c : String) :
    c ∉ classListRemove cls c := by
  simp [classListRemove]

theorem scrollRun_snoc (R : Rounding) (w : World) (pre : List ScrollSample) (e : ScrollSample) :
    scrollRun R w (pre ++ [e]) =
      if (scrollRun R w pre).listeners.scroll then BlogManager.onScroll R (scrollRun R w pre) e
      else scrollRun R w pre := by
  simp [scrollRun, List.foldl_append]

theorem scrollRun_listeners (R : Rounding) (w : World) (samples : List ScrollSample) :
    (scrollRun R w samples).listeners = w.listeners := by
  induction samples using List.reverseRecOn with
  | nil => rfl
  | append_singleton pre e ih =>
    rw [scrollRun_snoc]
    split
    · rw [onScroll_listeners, ih]
    · exact ih

theorem scrollRun_header_isSome (R : Rounding) (w : World) (samples : List ScrollSample) :
    (scrollRun R w samples).header.isSome = w.header.isSome := by
  induction samples using List.reverseRecOn with
  | nil => rfl
  | append_singleton pre e ih =>
    rw [scrollRun_snoc]
    split
    · rw [onScroll_header, ← ih]
      cases (scrollRun R w pre).header <;> rfl
    · exact ih

theorem init_header (w : World) : (BlogManager.init w).header = w.header := by
  simp only [BlogManager.init, BlogManager.setupAnimations, BlogManager.setupFormHandling,
    BlogManager.setupImageUpload, BlogManager.setupScrollEffects, BlogManager.setupTheme]
  repeat' split
  all_goals rfl

theorem init_scrollProgress (w : World) :
    (BlogManager.init w).scrollProgress = w.scrollProgress := by
  simp only [BlogManager.init, BlogManager.setupAnimations, BlogManager.setupFormHandling,
    BlogManager.setupImageUpload, BlogManager.setupScrollEffects, BlogManager.setupTheme]
  repeat' split
  all_goals rfl

theorem init_scroll (w : World) :
    (BlogManager.init w).listeners.scroll = (w.listeners.scroll || w.scrollProgress.isSome) := by
  simp only [BlogManager.init, BlogManager.setupAnimations, BlogManager.setupFormHandling,
    BlogManager.setupImageUpload, BlogManager.setupScrollEffects, BlogManager.setupTheme]
  split_ifs <;> simp_all

theorem constructor_world (w : World) (hread : w.storage.readThrows = false) :
    (BlogManager.constructor w).world =
      BlogManager.init { w with
        currentTheme := some (orElse (w.storage.items.lookup "theme") "light") } := by
  simp [BlogManager.constructor, LocalStorage.getItem, hread]

/-- C4: on a page whose scroll listener is registered, when the scrollable
range is zero (`scrollHeight = innerHeight`) the handler raises nothing (it
is a total function) but does not compute `0`: it computes `0 / 0 * 100`,
which is `NaN`, at `scrollTop = 0`, `Infinity` at a positive `scrollTop` and
`-Infinity` at a negative one, and assigns that number followed by `%`,
`NaN%` or `Infinity%`, to the width, never `0%`. -/
theorem scroll_zero_range (R : Rounding) (w : World) (e : ScrollSample)
    (hl : w.listeners.scroll = true) (hp : w.scrollProgress.isSome = true)
    (hz : e.scrollHeight = e.innerHeight) :
    (e.pageYOffset = 0 → (scrollRun R w [e]).scrollProgress = some (some JSNum.nan)) ∧
    (0 < e.pageYOffset → (scrollRun R w [e]).scrollProgress = some (some JSNum.posInf)) ∧
    (e.pageYOffset < 0 → (scrollRun R w [e]).scrollProgress = some (some JSNum.negInf)) ∧
    (scrollRun R w [e]).scrollProgress ≠ some (some (JSNum.fin 0)) ∧
    numberToString JSNum.nan = some "NaN" ∧
    numberToString JSNum.posInf = some "Infinity" := by
  have e1 : scrollRun R w [e] = BlogManager.onScroll R w e := by simp [scrollRun, hl]
  have hd : ((e.scrollHeight - e.innerHeight : ℤ) : ℚ) = 0 := by simp [hz]
  rw [e1, onScroll_width R w e hp, hd]
  refine ⟨?_, ?_, ?_, ?_, rfl, rfl⟩
  · intro h
    simp [jsDiv, jsMulPos, h]
  · intro h
    simp [jsDiv, jsMulPos, h, h.ne']
  · intro h
    simp [jsDiv, jsMulPos, h.ne, not_lt.mpr h.le]
  · simp only [jsDiv, if_true]
    split_ifs <;> simp [jsMulPos]

/-- C4 on the page with a progress bar whose content exactly fits the
viewport (`scrollHeight = innerHeight = 800`), at `scrollTop = 0`: the width
assigned is `NaN%`. -/
theorem scroll_zero_range_witness :
    (scrollRun Rounding.exactArith (BlogManager.constructor barWorld).world
      [⟨0, 800, 800⟩]).scrollProgress = some (some JSNum.nan) :=
  (scroll_zero_range Rounding.exactArith (BlogManager.constructor barWorld).world
    ⟨0, 800, 800⟩ (by decide) (by decide) rfl).1 rfl

/-- C5, as stated, fails: on a page with a header and no `#scrollProgress`
element no scroll listener is registered, and after a scroll event with
`scrollTop = 500` the header still lacks the class `scrolled`. -/
theorem header_untouched_without_progress_bar :
    (BlogManager.constructor noBarWorld).world.header = some ["site-header"] ∧
    (BlogManager.constructor noBarWorld).world.listeners.scroll = false ∧
    (scrollRun Rounding.exactArith (BlogManager.constructor noBarWorld).world
      [⟨500, 2000, 1000⟩]).header = some ["site-header"] ∧
    "scrolled" ∉ ["site-header"] := by
  decide

/-- C5, amended: on every page that has a header element and a
`#scrollProgress` element and whose persistence store can be read (so that
constructing `BlogManager` completes and registers the scroll listener), for
every sequence of scroll events handled after the construction, after each
event the header carries the class `scrolled` if and only if that event's
`scrollTop` is greater than 100, whatever the earlier scroll positions
were. -/
theorem header_scrolled_iff (R : Rounding) (w0 : World) (cls : List String)
    (hread : w0.storage.readThrows = false) (hh : w0.header = some cls)
    (hp : w0.scrollProgress.isSome = true) (pre : List ScrollSample) (e : ScrollSample) :
    ∃ cls', (scrollRun R (BlogManager.constructor w0).world (pre ++ [e])).header = some cls' ∧
      ("scrolled" ∈ cls' ↔ e.pageYOffset > 100) := by
  have hl : (BlogManager.constructor w0).world.listeners.scroll = true := by
    rw [constructor_world w0 hread, init_scroll]
    simp [hp]
  have hhd : (BlogManager.constructor w0).world.header.isSome = true := by
    rw [constructor_world w0 hread, init_header]
    simp [hh]
  have hl2 := scrollRun_listeners R (BlogManager.constructor w0).world pre
  have hh2 := scrollRun_header_isSome R (BlogManager.constructor w0).world pre
  rw [hhd] at hh2
  obtain ⟨c, hc⟩ := Option.isSome_iff_exists.mp hh2
  rw [scrollRun_snoc, hl2, hl, if_pos rfl, onScroll_header, hc]
  by_cases h : e.pageYOffset > 100
  · refine ⟨classListAdd c "scrolled", by simp only [Option.map_some', if_pos h], ?_⟩
    simp [h, mem_classListAdd]
  · refine ⟨classListRemove c "scrolled", by simp only [Option.map_some', if_neg h], ?_⟩
    simp [h, not_mem_classListRemove]

/-- The amended C5 on a page with a header and a progress bar: scrolling to
500 and back to 40 leaves the header without `scrolled`. -/
theorem header_scrolled_iff_witness :
    ∃ cls', (scrollRun Rounding.exactArith (BlogManager.constructor barWorld).world
        ([⟨500, 2000, 1000⟩] ++ [⟨40, 2000, 1000⟩])).header = some cls' ∧
      ("scrolled" ∈ cls' ↔ (40 : ℚ) > 100) :=
  header_scrolled_iff Rounding.exactArith barWorld ["site-header"] rfl rfl rfl
    [⟨500, 2000, 1000⟩] ⟨40, 2000, 1000⟩

/-- C6: on a page whose scroll listener is registered, for every
`documentHeight > viewportHeight` and every `scrollTop` between `0` and
`documentHeight - viewportHeight`, the scroll handler sets the progress-bar
width to the percentage `p` obtained by evaluating
`scrollTop / (documentHeight - viewportHeight) * 100`, each operation rounded
by `R`; `p` lies in `[0, 100]`; in exact arithmetic `p` is the quotient times
`100` itself; and for `documentHeight = 2000`, `viewportHeight = 1000`,
`scrollTop = 500` the width is `50`, written `50%`, under every rounding. -/
theorem progress_percent (R : Rounding) (w : World) (e : ScrollSample)
    (hl : w.listeners.scroll = true) (hp : w.scrollProgress.isSome = true)
    (hd : e.innerHeight < e.scrollHeight) (h0 : 0 ≤ e.pageYOffset)
    (h1 : e.pageYOffset ≤ ((e.scrollHeight - e.innerHeight : ℤ) : ℚ)) :
    (scrollRun R w [e]).scrollProgress = some (some (JSNum.fin
      (R.fl (R.fl (e.pageYOffset / ((e.scrollHeight - e.innerHeight : ℤ) : ℚ)) * 100)))) ∧
    0 ≤ R.fl (R.fl (e.pageYOffset / ((e.scrollHeight - e.innerHeight : ℤ) : ℚ)) * 100) ∧
    R.fl (R.fl (e.pageYOffset / ((e.scrollHeight - e.innerHeight : ℤ) : ℚ)) * 100) ≤ 100 ∧
    (scrollRun Rounding.exactArith w [e]).scrollProgress = some (some (JSNum.fin
      (e.pageYOffset / ((e.scrollHeight - e.innerHeight : ℤ) : ℚ) * 100))) ∧
    (scrollRun R w [⟨500, 2000, 1000⟩]).scrollProgress = some (some (JSNum.fin 50)) ∧
    numberToString (JSNum.fin 50) = some "50" := by
  have hdpos : (0 : ℚ) < ((e.scrollHeight - e.innerHeight : ℤ) : ℚ) := by
    have : (0 : ℤ) < e.scrollHeight - e.innerHeight := by omega
    exact_mod_cast this
  have run1 : ∀ (R' : Rounding) (e' : ScrollSample),
      (scrollRun R' w [e']).scrollProgress = some (some (jsMulPos R'
        (jsDiv R' e'.pageYOffset ((e'.scrollHeight - e'.innerHeight : ℤ) : ℚ)) 100)) := by
    intro R' e'
    have : scrollRun R' w [e'] = BlogManager.onScroll R' w e' := by simp [scrollRun, hl]
    rw [this, onScroll_width R' w e' hp]
  have hq0 : 0 ≤ e.pageYOffset / ((e.scrollHeight - e.innerHeight : ℤ) : ℚ) :=
    div_nonneg h0 hdpos.le
  have hq1 : e.pageYOffset / ((e.scrollHeight - e.innerHeight : ℤ) : ℚ) ≤ 1 :=
    (div_le_one hdpos).mpr h1
  have hf0 : 0 ≤ R.fl (e.pageYOffset / ((e.scrollHeight - e.innerHeight : ℤ) : ℚ)) := by
    have := R.mono hq0
    rwa [rounding_zero] at this
  have hf1 : R.fl (e.pageYOffset / ((e.scrollHeight - e.innerHeight : ℤ) : ℚ)) ≤ 1 := by
    have := R.mono hq1
    have h1' := rounding_int R 1 (by norm_num)
    simp only [Int.cast_one] at h1'
    rwa [h1'] at this
  refine ⟨?_, ?_, ?_, ?_, ?_, ?_⟩
  · rw [run1]
    simp only [jsDiv, jsMulPos, if_neg hdpos.ne']
  · have := R.mono (show (0 : ℚ) ≤
        R.fl (e.pageYOffset / ((e.scrollHeight - e.innerHeight : ℤ) : ℚ)) * 100 by positivity)
    rwa [rounding_zero] at this
  · have := R.mono (show
        R.fl (e.pageYOffset / ((e.scrollHeight - e.innerHeight : ℤ) : ℚ)) * 100 ≤ 100 by linarith)
    have h100 := rounding_int R 100 (by norm_num)
    simp only [Int.cast_ofNat] at h100
    rwa [h100] at this
  · rw [run1]
    simp only [jsDiv, jsMulPos, if_neg hdpos.ne', Rounding.exactArith, id]
  · rw [run1]
    have e1 : ((500 : ℚ) / (((2000 : ℤ) - (1000 : ℤ) : ℤ) : ℚ)) = 1 / 2 := by norm_num
    have e2 : (((2000 : ℤ) - (1000 : ℤ) : ℤ) : ℚ) ≠ 0 := by norm_num
    have h50 := rounding_int R 50 (by norm_num)
    simp only [Int.cast_ofNat] at h50
    simp only [jsDiv, jsMulPos, if_neg e2, e1, rounding_half]
    norm_num [h50]
  · rfl

/-- C6 at `documentHeight = 2000`, `viewportHeight = 1000`, `scrollTop = 500`
on the page with a progress bar, in exact arithmetic. -/
theorem progress_percent_witness :
    (scrollRun Rounding.exactArith (BlogManager.constructor barWorld).world
      [⟨500, 2000, 1000⟩]).scrollProgress = some (some (JSNum.fin 50)) :=
  (progress_percent Rounding.exactArith (BlogManager.constructor barWorld).world
    ⟨500, 2000, 1000⟩ (by decide) (by decide) (by decide) (by norm_num) (by norm_num)).2.2.2.2.1

/-! ## The image preview widget -/

/-- The two scripts register the same three listeners. -/
theorem standalone_eq_blogManager : Standalone.previewScript = BlogManager.previewScript := rfl

/-- C3, as stated, fails for both scripts: when B is selected before A's
read completes, both completions append their preview, so the container
ends with two previews, A's image among them, in the order of completion. -/
theorem stale_preview_remains :
    (BlogManager.constructor uploadWorld).world.listeners.change = true ∧
    (previewRun BlogManager.previewScript (BlogManager.constructor uploadWorld).world
      [.select [fileA], .select [fileB], .loaded 0, .loaded 1]).imagePreview
      = some [previewImg fileA, removeBtn, previewImg fileB, removeBtn] ∧
    (previewRun BlogManager.previewScript (BlogManager.constructor uploadWorld).world
      [.select [fileA], .select [fileB], .loaded 1, .loaded 0]).imagePreview
      = some [previewImg fileB, removeBtn, previewImg fileA, removeBtn] ∧
    previewCount (previewRun BlogManager.previewScript (BlogManager.constructor uploadWorld).world
      [.select [fileA], .select [fileB], .loaded 0, .loaded 1]) = 2 ∧
    (previewRun Standalone.previewScript (Standalone.domContentLoaded uploadWorld)
      [.select [fileA], .select [fileB], .loaded 0, .loaded 1]).imagePreview
      = some [previewImg fileA, removeBtn, previewImg fileB, removeBtn] := by
  decide

theorem previewStep_serialInv (w : World) (ev : PreviewEvent) (hinv : SerialInv w)
    (hser : ∀ files, ev = .select files → w.readers = []) :
    SerialInv (previewStep BlogManager.previewScript w ev) := by
  cases ev with
  | select files =>
    have hr := hser files rfl
    simp only [previewStep, BlogManager.previewScript, BlogManager.onChange]
    split
    · split
      · right
        rename_i file _
        refine ⟨⟨w.nextReader, file, by simp [hr]⟩, ?_⟩
        simp only [previewCount]
        cases w.imagePreview <;> simp
      · left
        refine ⟨hr, ?_⟩
        simp only [previewCount]
        cases w.imagePreview <;> simp
    · rcases hinv with h | h
      · exact Or.inl h
      · exact Or.inr h
  | loaded r =>
    simp only [previewStep, BlogManager.previewScript, BlogManager.readerOnload]
    split
    · rename_i file hlook
      rcases hinv with ⟨hr, _⟩ | ⟨⟨r', f', hr⟩, hc⟩
      · simp [hr, List.lookup] at hlook
      · left
        have hrr : r = r' := by
          rw [hr] at hlook
          simp only [List.lookup] at hlook
          split at hlook
          · rename_i heq
            exact (beq_iff_eq.mp heq)
          · simp at hlook
        refine ⟨by simp [hr, hrr], ?_⟩
        simp only [previewCount] at hc ⊢
        cases hw : w.imagePreview with
        | none => simp
        | some children =>
          rw [hw] at hc
          simp only at hc
          simp [List.countP_append, hc, Node.isImg, List.countP_cons]
    · exact hinv
  | failed r =>
    simp only [previewStep]
    rcases hinv with ⟨hr, hc⟩ | ⟨⟨r', f', hr⟩, hc⟩
    · exact Or.inl ⟨by simp [hr], hc⟩
    · by_cases h : r' = r
      · exact Or.inl ⟨by simp [hr, h], by simp only [previewCount] at hc ⊢; omega⟩
      · exact Or.inr ⟨⟨r', f', by simp [hr, h]⟩, hc⟩
  | remove =>
    simp only [previewStep, BlogManager.previewScript]
    split
    · split
      · have h0 : previewCount (BlogManager.removeClick w) = 0 := by
          simp only [previewCount, BlogManager.removeClick]
          cases w.imagePreview <;> simp
        have hr0 : (BlogManager.removeClick w).readers = w.readers := rfl
        unfold SerialInv
        rw [hr0, h0]
        rcases hinv with ⟨hr, _⟩ | ⟨hr, _⟩
        · exact Or.inl ⟨hr, by omega⟩
        · exact Or.inr ⟨hr, rfl⟩
      · exact hinv
    · exact hinv

theorem serialRun_serialInv (w : World) (evs : List PreviewEvent) (hinv : SerialInv w)
    (hser : serialRun BlogManager.previewScript w evs = true) :
    SerialInv (previewRun BlogManager.previewScript w evs) := by
  induction evs generalizing w with
  | nil => exact hinv
  | cons ev evs ih =>
    simp only [serialRun, Bool.and_eq_true] at hser
    have hstep : SerialInv (previewStep BlogManager.previewScript w ev) := by
      apply previewStep_serialInv w ev hinv
      intro files hev
      subst hev
      simpa using hser.1
    exact ih _ hstep hser.2

/-- C3, amended (both scripts): last selection wins when reads do not overlap
selections.  On a page with the input and the container, the change listener
registered and no read pending, for every two files A and B: if A's read
completes before B is selected, then after B's read completes the container
holds exactly one rendered preview, B's image and one Remove button, and no
node created for A remains.  In every state reached by events in which each
selection is made while no read is pending, the container holds at most one
rendered preview. -/
theorem last_selection (S : PreviewScript)
    (hS : S = BlogManager.previewScript ∨ S = Standalone.previewScript)
    (w : World) (A B : File)
    (hin : w.imageUpload.isSome = true) (hprev : w.imagePreview.isSome = true)
    (hl : w.listeners.change = true) (hr : w.readers = []) :
    (previewRun S w [.select [A], .loaded w.nextReader, .select [B],
        .loaded (w.nextReader + 1)]).imagePreview = some [previewImg B, removeBtn] ∧
    (∀ evs, previewCount w ≤ 1 → serialRun S w evs = true →
      previewCount (previewRun S w evs) ≤ 1) := by
  have hS' : S = BlogManager.previewScript := by
    rcases hS with h | h
    · exact h
    · rw [h, standalone_eq_blogManager]
  subst hS'
  obtain ⟨input, hin⟩ := Option.isSome_iff_exists.mp hin
  obtain ⟨children, hprev⟩ := Option.isSome_iff_exists.mp hprev
  refine ⟨?_, ?_⟩
  · simp [previewRun, previewStep, BlogManager.previewScript, BlogManager.onChange,
      BlogManager.readerOnload, hin, hprev, hl, hr, List.lookup, previewImg, removeBtn]
  · intro evs hc hser
    have hinv := serialRun_serialInv w evs (Or.inl ⟨hr, hc⟩) hser
    rcases hinv with ⟨_, h⟩ | ⟨_, h⟩
    · exact h
    · omega

/-- The amended C3 on the page constructed by `BlogManager` with the files
`a.png` and `b.png`. -/
theorem last_selection_witness :
    (previewRun BlogManager.previewScript (BlogManager.constructor uploadWorld).world
      [.select [fileA], .loaded 0, .select [fileB], .loaded 1]).imagePreview
      = some [previewImg fileB, removeBtn] :=
  (last_selection BlogManager.previewScript (Or.inl rfl)
    (BlogManager.constructor uploadWorld).world fileA fileB
    (by decide) (by decide) (by decide) (by decide)).1

/-- C7: in every state in which a preview is shown (the container holds a
Remove button to click), the click handler of the Remove button leaves the
preview container with no children and the file input with the empty string
as value (and no files); the handler of the class and the freestanding
handler do the same. -/
theorem remove_clears (w : World) (children : List Node) (input : FileInput)
    (hprev : w.imagePreview = some children) (hshown : children.any Node.isButton = true)
    (hin : w.imageUpload = some input) :
    (previewStep BlogManager.previewScript w .remove).imagePreview = some [] ∧
    (previewStep BlogManager.previewScript w .remove).imageUpload = some ⟨"", []⟩ ∧
    (previewStep Standalone.previewScript w .remove).imagePreview = some [] ∧
    (previewStep Standalone.previewScript w .remove).imageUpload = some ⟨"", []⟩ ∧
    BlogManager.removeClick w = Standalone.removeClick w := by
  simp [previewStep, BlogManager.previewScript, Standalone.previewScript,
    BlogManager.removeClick, Standalone.removeClick, hprev, hshown, hin]

/-- C7 on the page constructed by `BlogManager` after `a.png` was selected
and read. -/
theorem remove_clears_witness :
    (previewStep BlogManager.previewScript
      (previewRun BlogManager.previewScript (BlogManager.constructor uploadWorld).world
        [.select [fileA], .loaded 0]) .remove).imagePreview = some [] ∧
    (previewStep BlogManager.previewScript
      (previewRun BlogManager.previewScript (BlogManager.constructor uploadWorld).world
        [.select [fileA], .loaded 0]) .remove).imageUpload = some ⟨"", []⟩ :=
  have h := remove_clears
    (previewRun BlogManager.previewScript (BlogManager.constructor uploadWorld).world
      [.select [fileA], .loaded 0])
    [previewImg fileA, removeBtn] ⟨"C:\\fakepath\\a.png", [fileA]⟩
    (by decide) (by decide) (by decide)
  ⟨h.1, h.2.1⟩

/-! ## Entrance animations -/

theorem getElem?_updateStyle (els : List ElemStyle) (t i : Nat) (f : ElemStyle → ElemStyle) :
    (updateStyle els t f)[i]? = if t = i then els[i]?.map f else els[i]? := by
  unfold updateStyle
  cases h : els[t]? with
  | none =>
    simp only
    split
    · rename_i hti
      subst hti
      simp [h]
    · rfl
  | some e =>
    simp only
    rw [List.getElem?_set]
    split
    · rename_i hti
      subst hti
      have hlt : t < els.length := by
        by_contra hge
        rw [List.getElem?_eq_none (by omega)] at h
        cases h
      simp [hlt, h]
    · rfl

theorem foldl_animated (g : World → Entry → World)
    (hg : ∀ w e, (g w e).animated = revealEntry w.animated e ∧ (g w e).listeners = w.listeners)
    (w : World) (entries : List Entry) :
    (entries.foldl g w).animated = entries.foldl revealEntry w.animated ∧
    (entries.foldl g w).listeners = w.listeners := by
  induction entries generalizing w with
  | nil => exact ⟨rfl, rfl⟩
  | cons entry rest ih =>
    simp only [List.foldl_cons]
    rw [(ih (g w entry)).1, (ih (g w entry)).2, (hg w entry).1, (hg w entry).2]
    exact ⟨rfl, rfl⟩

theorem observerCallback_animated (w : World) (entries : List Entry) :
    (BlogManager.observerCallback w entries).animated = entries.foldl revealEntry w.animated ∧
    (BlogManager.observerCallback w entries).listeners = w.listeners := by
  unfold BlogManager.observerCallback
  apply foldl_animated
  intro w e
  by_cases h : e.isIntersecting = true <;> simp [revealEntry, h]

theorem getElem?_revealEntry (els : List ElemStyle) (entry : Entry) (i : Nat)
    (hs : els[i]? = some (hiddenStyle i) ∨ els[i]? = some (visibleStyle i)) :
    (revealEntry els entry)[i]? =
      if entry.reveals i = true then some (visibleStyle i) else els[i]? := by
  unfold revealEntry Entry.reveals
  by_cases hint : entry.isIntersecting = true
  · simp only [hint, if_true, Bool.and_true, beq_iff_eq]
    rw [getElem?_updateStyle, getElem?_updateStyle]
    by_cases ht : entry.target = i
    · simp only [ht, if_true]
      rcases hs with h | h <;> simp [h, hiddenStyle, visibleStyle]
    · simp only [ht, if_false]
  · simp [hint]

theorem getElem?_foldl_revealEntry (entries : List Entry) (els : List ElemStyle) (i : Nat)
    (hs : els[i]? = some (hiddenStyle i) ∨ els[i]? = some (visibleStyle i)) :
    (entries.foldl revealEntry els)[i]? =
      if entries.any (Entry.reveals i) = true then some (visibleStyle i) else els[i]? := by
  induction entries generalizing els with
  | nil => simp
  | cons entry rest ih =>
    simp only [List.foldl_cons, List.any_cons, Bool.or_eq_true]
    have h1 := getElem?_revealEntry els entry i hs
    have hs' : (revealEntry els entry)[i]? = some (hiddenStyle i) ∨
        (revealEntry els entry)[i]? = some (visibleStyle i) := by
      rw [h1]
      split
      · exact Or.inr rfl
      · exact hs
    rw [ih _ hs', h1]
    by_cases hr : rest.any (Entry.reveals i) = true
    · simp [hr]
    · by_cases he : entry.reveals i = true <;> simp [hr, he]

theorem observerRun_animated (calls : List (List Entry)) (w : World)
    (hobs : w.listeners.observer = true) :
    (observerRun w calls).animated = calls.flatten.foldl revealEntry w.animated := by
  unfold observerRun
  induction calls generalizing w with
  | nil => rfl
  | cons entries rest ih =>
    simp only [List.foldl_cons, hobs, if_true, List.flatten_cons, List.foldl_append]
    have h := observerCallback_animated w entries
    rw [ih _ (by rw [h.2]; exact hobs), h.1]

theorem init_animated (w : World) (hobs : w.hasIntersectionObserver = true) :
    (BlogManager.init w).animated = w.animated.mapIdx (fun index _ => hiddenStyle index) ∧
    (BlogManager.init w).listeners.observer = true := by
  simp only [BlogManager.init, BlogManager.setupAnimations, BlogManager.setupFormHandling,
    BlogManager.setupImageUpload, BlogManager.setupScrollEffects, BlogManager.setupTheme]
  split_ifs <;> simp_all [hiddenStyle]

/-- C8: on a page whose browser has `IntersectionObserver`, every element
matching `.card, .post` is hidden by the constructor (opacity `0`,
`translateY(20px)`); after any sequence of calls of the observer's callback
its style is the visible one (opacity `1`, `translateY(0)`) exactly when some
entry so far reported it as intersecting, and the hidden one otherwise; once
visible it stays visible under every further call, whatever the entries. -/
theorem reveal_latch (w0 : World) (i : Nat) (hread : w0.storage.readThrows = false)
    (hobs : w0.hasIntersectionObserver = true) (hi : i < w0.animated.length)
    (calls more : List (List Entry)) :
    (BlogManager.constructor w0).world.animated[i]? = some (hiddenStyle i) ∧
    (observerRun (BlogManager.constructor w0).world calls).animated[i]? =
      some (if calls.flatten.any (Entry.reveals i) = true then visibleStyle i
        else hiddenStyle i) ∧
    ((observerRun (BlogManager.constructor w0).world calls).animated[i]? = some (visibleStyle i) →
      (observerRun (BlogManager.constructor w0).world (calls ++ more)).animated[i]?
        = some (visibleStyle i)) := by
  have hinit := init_animated
    { w0 with currentTheme := some (orElse (w0.storage.items.lookup "theme") "light") } hobs
  rw [← constructor_world w0 hread] at hinit
  have hstart : (BlogManager.constructor w0).world.animated[i]? = some (hiddenStyle i) := by
    rw [hinit.1, List.getElem?_mapIdx, List.getElem?_eq_getElem hi]
    rfl
  have hrun : ∀ cs : List (List Entry),
      (observerRun (BlogManager.constructor w0).world cs).animated[i]? =
        some (if cs.flatten.any (Entry.reveals i) = true then visibleStyle i
          else hiddenStyle i) := by
    intro cs
    rw [observerRun_animated cs _ hinit.2,
      getElem?_foldl_revealEntry _ _ i (Or.inl hstart), hstart]
    split <;> rfl
  refine ⟨hstart, hrun calls, ?_⟩
  intro hvis
  rw [hrun] at hvis
  rw [hrun]
  by_cases h : calls.flatten.any (Entry.reveals i) = true
  · simp [h]
  · rw [if_neg h] at hvis
    simp [hiddenStyle, visibleStyle] at hvis

/-- C8 on the page with three cards: the second card, reported as
intersecting, then as not intersecting, then as intersecting again, is
visible. -/
theorem reveal_latch_witness :
    (observerRun (BlogManager.constructor cardsWorld).world
      [[⟨1, true⟩], [⟨1, false⟩, ⟨0, false⟩], [⟨1, true⟩]]).animated[1]?
      = some (visibleStyle 1) :=
  (reveal_latch cardsWorld 1 rfl rfl (by decide)
    [[⟨1, true⟩], [⟨1, false⟩, ⟨0, false⟩], [⟨1, true⟩]] []).2.1

namespace Debounce

variable {α : Type}

theorem run_snoc (wait : Nat) (s : State α) (pre : List (Event α)) (ev : Event α) :
    run wait s (pre ++ [ev]) = (run wait s pre).bind (fun sp => step wait sp ev) := by
  induction pre generalizing s with
  | nil =>
    simp only [List.nil_append, run, Option.some_bind]
    cases step wait s ev <;> rfl
  | cons e rest ih =>
    simp only [List.cons_append, run]
    cases step wait s e with
    | none => rfl
    | some s1 => simpa using ih s1

theorem step_call_of_pending (wait : Nat) (last : Option (Event α)) (s : State α)
    (hp : Pending wait last s) (t : Nat) (a : α) (ht : s.now ≤ t) :
    ∃ s1, step wait s (.call t a) = some s1 ∧ s1.invoked = s.invoked ∧
      s1.timers = [⟨s.nextId, t + wait, a⟩] ∧ s1.timeout = some s.nextId ∧ s1.now = t := by
  have hclear : (clearTimeout { s with now := t } s.timeout).timers = [] := by
    unfold Pending at hp
    split at hp
    · obtain ⟨id, h1, h2, _⟩ := hp
      simp [clearTimeout, h1, h2]
    · simp only [clearTimeout]
      split <;> simp [hp]
  have hnow : (clearTimeout { s with now := t } s.timeout).now = t := by
    simp only [clearTimeout]
    split <;> rfl
  have hnext : (clearTimeout { s with now := t } s.timeout).nextId = s.nextId := by
    simp only [clearTimeout]
    split <;> rfl
  have hinv : (clearTimeout { s with now := t } s.timeout).invoked = s.invoked := by
    simp only [clearTimeout]
    split <;> rfl
  refine ⟨executedFunction wait { s with now := t } a, by simp only [step, if_pos ht],
    ?_, ?_, ?_, ?_⟩
  · simp only [executedFunction, setTimeout, hinv]
  · simp only [executedFunction, setTimeout, hclear, hnow, hnext, List.nil_append]
  · simp only [executedFunction, setTimeout, hnext]
  · simp only [executedFunction, setTimeout, hnow]

theorem step_fire_of_pending (wait : Nat) (last : Option (Event α)) (s : State α)
    (hp : Pending wait last s) (t id : Nat) (s1 : State α)
    (hs : step wait s (.fire t id) = some s1) :
    ∃ t0 a, last = some (.call t0 a) ∧ t0 + wait ≤ t ∧
      s1.invoked = s.invoked ++ [(t, a)] ∧ s1.timers = [] := by
  unfold Pending at hp
  split at hp
  · rename_i t0 a
    obtain ⟨id0, h1, h2, h3⟩ := hp
    refine ⟨t0, a, rfl, ?_⟩
    simp only [step, h1, List.find?_cons, List.find?_nil] at hs
    by_cases hid : (id0 == id) = true
    · simp only [hid] at hs
      split at hs
      · rename_i hle
        have hid' : id0 = id := beq_iff_eq.mp hid
        cases hs
        refine ⟨hle.2, ?_, ?_⟩
        · simp [later, clearTimeout, h2]
        · simp [later, clearTimeout, h2, hid']
      · cases hs
    · simp only [hid] at hs
      cases hs
  · simp [step, hp] at hs

theorem step_fire_enabled (wait : Nat) (s : State α) (id t0 t : Nat) (a : α)
    (h1 : s.timers = [⟨id, t0 + wait, a⟩]) (h2 : s.timeout = some id) (h3 : s.now = t0)
    (ht : t0 + wait ≤ t) :
    ∃ s1, step wait s (.fire t id) = some s1 ∧ s1.invoked = s.invoked ++ [(t, a)] ∧
      s1.timers = [] := by
  have hnow : s.now ≤ t := by omega
  refine ⟨later { s with now := t, timers := s.timers.filter (fun x => x.id != id) } a,
    by simp [step, h1, hnow, ht], ?_, ?_⟩
  · simp [later, clearTimeout, h2]
  · simp [later, clearTimeout, h2, h1]

theorem run_pending (wait : Nat) (now nextId : Nat) (evs : List (Event α)) (s : State α)
    (hs : run wait (debounce now nextId) evs = some s) : Pending wait evs.getLast? s := by
  induction evs using List.reverseRecOn generalizing s with
  | nil =>
    simp only [run, Option.some.injEq] at hs
    subst hs
    simp [Pending, debounce]
  | append_singleton pre ev ih =>
    rw [run_snoc] at hs
    cases hpre : run wait (debounce now nextId) pre with
    | none => simp [hpre] at hs
    | some sp =>
      simp only [hpre, Option.some_bind] at hs
      have hp := ih sp hpre
      have hlast : (pre ++ [ev]).getLast? = some ev := by simp
      rw [hlast]
      cases ev with
      | call t a =>
        have hnow : sp.now ≤ t := by
          by_contra hlt
          simp [step, hlt] at hs
        obtain ⟨s1, e1, _, h2, h3, h4⟩ := step_call_of_pending wait _ sp hp t a hnow
        rw [e1] at hs
        cases hs
        exact ⟨_, h2, h3, h4⟩
      | fire t id =>
        obtain ⟨_, _, _, _, _, h⟩ := step_fire_of_pending wait _ sp hp t id s hs
        exact h

theorem timers_length_of_pending (wait : Nat) (last : Option (Event α)) (s : State α)
    (hp : Pending wait last s) : s.timers.length ≤ 1 := by
  unfold Pending at hp
  split at hp
  · obtain ⟨id, h1, _⟩ := hp
    simp [h1]
  · simp [hp]

/-- C10: `debounce(func, wait)` is a trailing-edge debounce.  In every state
`sp` reached by a sequence `pre` of calls and timer runs: (1) at most one
timer is pending; (2) whenever a timer runs next, at time `t`, the event
just before it was a call, made at some `t0` with `t0 + wait ≤ t` and
arguments `a`, and the run invokes `func` once, with `a`, and leaves no timer
pending (so `func` is never invoked twice for one call); (3) a call at
`t0` with `a` does not invoke `func`, it cancels what was pending and leaves
exactly one timer, due at `t0 + wait` and carrying `a`, and when that timer
runs at any `t ≥ t0 + wait` with no call in between, `func` is invoked
once, with `a`. -/
theorem trailing_edge (wait now nextId : Nat) (pre : List (Event α)) (sp : State α)
    (hpre : run wait (debounce now nextId) pre = some sp) :
    sp.timers.length ≤ 1 ∧
    (∀ t id s, run wait (debounce now nextId) (pre ++ [.fire t id]) = some s →
      ∃ pre1 t0 a, pre = pre1 ++ [.call t0 a] ∧ t0 + wait ≤ t ∧
        s.invoked = sp.invoked ++ [(t, a)] ∧ s.timers = []) ∧
    (∀ t0 a, sp.now ≤ t0 →
      ∃ s, run wait (debounce now nextId) (pre ++ [.call t0 a]) = some s ∧
        s.invoked = sp.invoked ∧ s.timers = [⟨sp.nextId, t0 + wait, a⟩] ∧
        ∀ t, t0 + wait ≤ t →
          ∃ s1, run wait (debounce now nextId)
              (pre ++ [.call t0 a] ++ [.fire t sp.nextId]) = some s1 ∧
            s1.invoked = sp.invoked ++ [(t, a)] ∧ s1.timers = []) := by
  have hp := run_pending wait now nextId pre sp hpre
  refine ⟨timers_length_of_pending wait _ sp hp, ?_, ?_⟩
  · intro t id s hs
    rw [run_snoc, hpre] at hs
    simp only [Option.some_bind] at hs
    obtain ⟨t0, a, hlast, hle, hinv, htm⟩ := step_fire_of_pending wait _ sp hp t id s hs
    obtain ⟨pre1, hpre1⟩ := List.getLast?_eq_some_iff.mp hlast
    exact ⟨pre1, t0, a, hpre1, hle, hinv, htm⟩
  · intro t0 a hnow
    obtain ⟨s, e1, hinv, htm, hto, hn⟩ := step_call_of_pending wait _ sp hp t0 a hnow
    have hrun : run wait (debounce now nextId) (pre ++ [.call t0 a]) = some s := by
      rw [run_snoc, hpre]
      simpa using e1
    refine ⟨s, hrun, hinv, htm, ?_⟩
    intro t ht
    obtain ⟨s1, e2, hinv1, htm1⟩ := step_fire_enabled wait s sp.nextId t0 t a htm hto hn ht
    refine ⟨s1, ?_, ?_, htm1⟩
    · rw [run_snoc, hrun]
      simpa using e2
    · rw [hinv1, hinv]

/-- C10 for `wait = 100`: calls at 0 with `a` and at 50 with `b`; the timer
of the second call (identifier 2) runs at 150 and `func` has been invoked
once, with `b`, at 150. -/
theorem trailing_edge_witness :
    ∃ s1 : State String,
      run 100 (debounce 0 1) ([.call 0 "a"] ++ [.call 50 "b"] ++ [.fire 150 2]) = some s1 ∧
      s1.invoked = [] ++ [(150, "b")] ∧ s1.timers = [] :=
  ((trailing_edge 100 0 1 [Event.call 0 "a"]
    (executedFunction 100 (debounce 0 1) "a") rfl).2.2 50 "b" (by decide)).elim
    (fun _ hs => hs.2.2.2 150 (by decide))

end Debounce

end PyArch
